import Mathlib

/-!
Shallow embedding of `profiler.js` (src/src/index.ts): the statistics
aggregation of `getResults` and the sequence-diagram reconstruction of
`generateSequenceDiagram`, together with theorems settling the frozen
claims about them.

Modelling conventions:
* JavaScript numbers that are known-finite inputs (timestamps, recorded
  durations, samples) are modelled as `ℚ`; additions and comparisons on
  them are exact.  The special values a statistics field can take
  (`NaN`, `±Infinity` from `Math.min`/`Math.max` of an empty spread,
  `undefined` from an out-of-bounds index) are modelled by the `JsNum`
  sentinels.
* `Object.entries` iterates string keys in insertion order, so the
  profiler store `profiler.functionData` is an insertion-ordered
  association list.
* `Array.prototype.sort` with a comparator is stable (ES2019); with the
  consistent comparators used by the source (`a.timestamp - b.timestamp`
  and `b.avg - a.avg`, where a `NaN` comparator result is treated as 0
  by SortCompare) it is extensionally the stable insertion sort
  `sortOrd` below.
-/

namespace ProfilerJs

/-- Values a statistics field can hold in JavaScript: a finite number,
`NaN`, `Infinity`, `-Infinity`, or `undefined` (out-of-bounds index). -/
inductive JsNum where
  | num : ℚ → JsNum
  | nan : JsNum
  | posInf : JsNum
  | negInf : JsNum
  | undef : JsNum
deriving DecidableEq

/-- The five summary fields computed for one sample list
(`avg`/`min`/`max`/`p0`/`p99` in the source). -/
structure DurationStats where
  avg : JsNum
  min : JsNum
  max : JsNum
  p0 : JsNum
  p99 : JsNum
deriving DecidableEq

/-- `functionData[name].reduce((a, b) => a + b, 0)`. -/
def listSum (l : List ℚ) : ℚ :=
  l.foldl (fun a b => a + b) 0

/-- `reduce((a,b) => a+b, 0) / length`: `0 / 0` is `NaN` in JS, hence the
empty case. -/
def jsAvg (l : List ℚ) : JsNum :=
  if l.length = 0 then JsNum.nan else JsNum.num (listSum l / l.length)

/-- `Math.min(...l)`: `Infinity` on an empty spread. -/
def jsMin (l : List ℚ) : JsNum :=
  match l with
  | [] => JsNum.posInf
  | x :: xs => JsNum.num (xs.foldl min x)

/-- `Math.max(...l)`: `-Infinity` on an empty spread. -/
def jsMax (l : List ℚ) : JsNum :=
  match l with
  | [] => JsNum.negInf
  | x :: xs => JsNum.num (xs.foldl max x)

/-- `l[i]`: `undefined` when the index is out of bounds. -/
def jsIndex (l : List ℚ) (i : Nat) : JsNum :=
  match l[i]? with
  | some x => JsNum.num x
  | none => JsNum.undef

/-- `Math.floor(n * 0.99)`.  The double nearest to `0.99` is
`0.99 - 0.08 * 2 ^ (-53)`, so the floating-point product `n * 0.99`
floors to the same integer as the exact `99 * n / 100` for every list
length that can occur (`n < 2 ^ 45`); we use the exact form. -/
def p99Index (n : Nat) : Nat :=
  (99 * n) / 100

/-- The statistics block the source builds for one duration array
(`avg`, `min`, `max`, `p0`, `p99` of `getResults`, lines 76-97). -/
def durationStats (l : List ℚ) : DurationStats :=
  { avg := jsAvg l
    min := jsMin l
    max := jsMax l
    p0 := jsIndex l 0
    p99 := jsIndex l (p99Index l.length) }

/-- `FunctionData` of the source: parallel sample arrays plus one
promise flag. -/
structure FunctionData where
  isPromise : Bool
  executionDuration : List ℚ
  invocationTimestamps : List ℚ
  threadBlockingDuration : List ℚ
deriving DecidableEq

/-- `profiler.functionData`: a string-keyed record in insertion order. -/
def Store : Type := List (String × FunctionData)

/-- One entry of the `getResults` output array. -/
structure ProfilerResult where
  className : String
  functionName : String
  isPromise : Bool
  threadBlockingDuration : DurationStats
  executionDuration : DurationStats
  invocationTimestamps : List ℚ
deriving DecidableEq

/-- `name.includes(".")`. -/
def hasDot (s : String) : Bool :=
  s.data.contains '.'

/-- `name.split(".")[0]`: the characters before the first `"."` (the
whole string when there is none). -/
def headPart (s : String) : String :=
  String.mk (s.data.takeWhile (fun c => c != '.'))

/-- `name.split(".")[1]` for a string that contains a `"."`: the
characters strictly between the first `"."` and the next one (or the
end). -/
def secondPart (s : String) : String :=
  String.mk (((s.data.dropWhile (fun c => c != '.')).drop 1).takeWhile
    (fun c => c != '.'))

/-- The `.map` body of `getResults`: split `"Class.method"` names and
aggregate both sample arrays. -/
def mkResult (name : String) (d : FunctionData) : ProfilerResult :=
  { className := if hasDot name then headPart name else ""
    functionName := if hasDot name then secondPart name else name
    isPromise := d.isPromise
    threadBlockingDuration := durationStats d.threadBlockingDuration
    executionDuration := durationStats d.executionDuration
    invocationTimestamps := d.invocationTimestamps }

/-- Stable insertion of `x` after every element that strictly precedes
it. -/
def insertOrd (lt : α → α → Bool) (x : α) : List α → List α
  | [] => [x]
  | y :: ys => if lt y x then y :: insertOrd lt x ys else x :: y :: ys

/-- Stable insertion sort; extensionally the ES2019 stable
`Array.prototype.sort` for a consistent comparator, where
`lt a b` means "the comparator returns a negative number on `(a, b)`". -/
def sortOrd (lt : α → α → Bool) : List α → List α
  | [] => []
  | x :: xs => insertOrd lt x (sortOrd lt xs)

/-- Comparator of `getResults`: `(a, b) => b.executionDuration.avg -
a.executionDuration.avg` is negative exactly when both averages are
finite and `b`'s is smaller (a `NaN` result is treated as 0 by ES
SortCompare). -/
def resLt (a b : ProfilerResult) : Bool :=
  match a.executionDuration.avg, b.executionDuration.avg with
  | JsNum.num x, JsNum.num y => decide (y < x)
  | _, _ => false

/-- `getResults` (without the file-export branch): map every store entry
to its result record and sort by descending average execution
duration. -/
def getResults (s : Store) : List ProfilerResult :=
  sortOrd resLt (s.map (fun nd => mkResult nd.1 nd.2))

/-- The flattened per-invocation view built at the top of
`generateSequenceDiagram`. -/
structure SeqEvent where
  timestamp : ℚ
  functionName : String
  duration : ℚ
  isPromise : Bool
deriving DecidableEq

/-- `getParticipantName`: the part before the first `"."`, with the JS
fallback `parts[0] || fullName` for a falsy (empty) first part. -/
def getParticipantName (fullName : String) : String :=
  if hasDot fullName then
    if headPart fullName = "" then fullName else headPart fullName
  else fullName

/-- `getMethodName`: the part after the first `"."`, with the JS
fallback `parts[1] || fullName`. -/
def getMethodName (fullName : String) : String :=
  if hasDot fullName then
    if secondPart fullName = "" then fullName else secondPart fullName
  else fullName

/-- `data.executionDuration[i] || 0`: a missing (undefined) duration is
treated as 0; the `|| 0` is the identity on every recorded value other
than 0, and maps 0 to 0. -/
def jsOr0 (x : Option ℚ) : ℚ :=
  x.getD 0

/-- The inner extraction loop of `generateSequenceDiagram` for one store
entry: one event per timestamp index (the `timestamp === undefined`
guard of the source corresponds to the `none` case, which cannot fire on
a hole-free list). -/
def entryEvents (name : String) (d : FunctionData) : List SeqEvent :=
  (List.range d.invocationTimestamps.length).filterMap (fun i =>
    match d.invocationTimestamps[i]? with
    | none => none
    | some ts =>
        some { timestamp := ts
               functionName := name
               duration := jsOr0 (d.executionDuration[i]?)
               isPromise := d.isPromise })

/-- All function calls of the store, in `Object.entries` (insertion)
order. -/
def flattenCalls (s : Store) : List SeqEvent :=
  (s.map (fun nd => entryEvents nd.1 nd.2)).flatten

/-- Comparator `(a, b) => a.timestamp - b.timestamp` is negative exactly
when `a.timestamp < b.timestamp`. -/
def evtLt (a b : SeqEvent) : Bool :=
  decide (a.timestamp < b.timestamp)

/-- The nesting test of the walk: `next.timestamp < current.timestamp +
current.duration`. -/
def nestingTest (cur next : SeqEvent) : Bool :=
  decide (next.timestamp < cur.timestamp + cur.duration)

/-- `isWithinDuration` of the source (inclusive upper bound). -/
def isWithinDuration (parentCall childCall : SeqEvent) : Bool :=
  decide (childCall.timestamp ≥ parentCall.timestamp ∧
    childCall.timestamp ≤ parentCall.timestamp + parentCall.duration)

/-- One emitted diagram line: a call edge (source, target, method label,
caller promise flag), a return edge (source, target), or the circular
truncation note. -/
inductive DiagramLine where
  | call : String → String → String → Bool → DiagramLine
  | ret : String → String → DiagramLine
  | note : String → DiagramLine
deriving DecidableEq

/-- Serialization of one diagram line exactly as the source appends it
to the `diagram` string (the `arrowType` ternary on the promise flag is
reproduced verbatim, both branches being `"->>"`). -/
def renderLine : DiagramLine → String
  | DiagramLine.call source target label isP =>
      let arrowType := if isP then "->>" else "->>"
      "  " ++ source ++ arrowType ++ target ++ ": " ++ label ++ "\n"
  | DiagramLine.ret source target =>
      "  " ++ source ++ "-->" ++ target ++ ": return\n"
  | DiagramLine.note p =>
      "  Note over " ++ p ++ ": Circular pattern detected - diagram truncated\n"

/-- The mutable state of the walk: `sequenceHistory` and
`currentSequence`. -/
structure WalkState where
  history : List String
  curSeq : List String
deriving DecidableEq

/-- The edge possibly emitted by one loop iteration: a `Call` edge when
the nesting test holds for the next event, otherwise (when a next event
exists, `i > 0`, and the current event lies within the previous one's
window) a `Return` edge. -/
def stepEdge (i : Nat) (prev : Option SeqEvent) (cur : SeqEvent)
    (next : Option SeqEvent) : List DiagramLine :=
  match next with
  | some n =>
      if nestingTest cur n then
        [DiagramLine.call (getParticipantName cur.functionName)
          (getParticipantName n.functionName)
          (getMethodName n.functionName) cur.isPromise]
      else if 0 < i then
        match prev with
        | some p =>
            if isWithinDuration p cur then
              [DiagramLine.ret (getParticipantName cur.functionName)
                (getParticipantName p.functionName)]
            else []
        | none => []
      else []
  | none => []

/-- `nextCall && isWithinDuration(currentCall, nextCall)`: the condition
whose failure clears the running trace (inside the `length > 2`
branch). -/
def nextWithin (cur : SeqEvent) (next : Option SeqEvent) : Bool :=
  match next with
  | some n => isWithinDuration cur n
  | none => false

/-- One iteration of the walk loop body: emit the edge, append the
current name to the running trace, detect a repeated trace signature
(emitting the note and stopping), and otherwise update
history/trace exactly as the source does (history push and conditional
trace reset only once the trace is longer than 2). -/
def walkStep (i : Nat) (prev : Option SeqEvent) (cur : SeqEvent)
    (next : Option SeqEvent) (st : WalkState) :
    List DiagramLine × WalkState × Bool :=
  let curSeq := st.curSeq ++ [cur.functionName]
  let edge := stepEdge i prev cur next
  let seqStr := String.intercalate "-" curSeq
  if st.history.contains seqStr then
    (edge ++ [DiagramLine.note (getParticipantName cur.functionName)],
      ⟨st.history, curSeq⟩, true)
  else if 2 < curSeq.length then
    let newSeq := if nextWithin cur next then curSeq else []
    (edge, ⟨st.history ++ [seqStr], newSeq⟩, false)
  else
    (edge, ⟨st.history, curSeq⟩, false)

/-- The walk over adjacent event pairs, from index `i` with `prev =
events[i-1]`; the loop runs while `i < min(length, maxIterations)` (the
source's inner `iterations >= maxIterations` break is unreachable since
`iterations = i` at that check).  Returns the emitted lines and the
number of iterations that examined an adjacent pair (a non-null
`nextCall`). -/
def walkFrom (maxIterations : Nat) :
    Nat → Option SeqEvent → List SeqEvent → WalkState →
      List DiagramLine × Nat
  | _, _, [], _ => ([], 0)
  | i, prev, cur :: rest, st =>
    if i < maxIterations then
      let step := walkStep i prev cur rest.head? st
      let pairHere : Nat := if rest.isEmpty then 0 else 1
      if step.2.2 then (step.1, pairHere)
      else
        let r := walkFrom maxIterations (i + 1) (some cur) rest step.2.1
        (step.1 ++ r.1, pairHere + r.2)
    else ([], 0)

/-- The participant set in first-seen order (a JS `Set` preserves
insertion order). -/
def firstSeenParticipants (events : List SeqEvent) : List String :=
  events.foldl (fun acc e =>
    let p := getParticipantName e.functionName
    if acc.contains p then acc else acc ++ [p]) []

/-- The fixed diagram returned when no function calls are recorded. -/
def noDataDiagram : String :=
  "```mermaid\nsequenceDiagram\n  Note over No Data: No function calls recorded\n```"

/-- `generateSequenceDiagram` (without the file-export branch): flatten,
sort by timestamp, short-circuit on the empty list, then emit
participants, walked edges, and the closing fence. -/
def generateSequenceDiagram (store : Store) (maxIterations : Nat) : String :=
  let functionCalls := sortOrd evtLt (flattenCalls store)
  if functionCalls.isEmpty then
    noDataDiagram
  else
    "```mermaid\nsequenceDiagram\n"
      ++ String.join ((firstSeenParticipants functionCalls).map
          (fun p => "  participant " ++ p ++ "\n"))
      ++ String.join (((walkFrom maxIterations 0 none functionCalls
          ⟨[], []⟩).1).map renderLine)
      ++ "```"

/-- The half-open execution windows `[timestamp, timestamp + duration)`
of two events share a point. -/
def windowsOverlap (a b : SeqEvent) : Prop :=
  max a.timestamp b.timestamp <
    min (a.timestamp + a.duration) (b.timestamp + b.duration)

instance (a b : SeqEvent) : Decidable (windowsOverlap a b) := by
  unfold windowsOverlap
  infer_instance

/-- Replace every store entry's promise flag by `fl name`, leaving the
sample arrays untouched.  Two stores that are identical except for their
promise flags are `setFlags` images of one another. -/
def setFlags (fl : String → Bool) (s : Store) : Store :=
  s.map (fun nd => (nd.1, { nd.2 with isPromise := fl nd.1 }))

/-- The corresponding rewrite on flattened events. -/
def evFlag (fl : String → Bool) (e : SeqEvent) : SeqEvent :=
  { e with isPromise := fl e.functionName }

/-- The 100 ascending samples `1..100` named in the spec's p99 test. -/
def ascending100 : List ℚ :=
  (List.range 100).map (fun i => (i : ℚ) + 1)

/-- Store whose sorted events are `A@0(dur 100)`, `B@10(dur 20)`,
`C@50(dur 10)`: the walk emits one `Call` edge and one `Return`
edge. -/
def storeRet : Store :=
  [("A", ⟨false, [100], [0], []⟩),
   ("B", ⟨false, [20], [10], []⟩),
   ("C", ⟨false, [10], [50], []⟩)]

/-- Store whose sorted events form the six-event fully nested chain
`[X, Y, X, Y, X, Y]` (each event's timestamp strictly inside the
previous event's window). -/
def storeChain6 : Store :=
  [("X", ⟨false, [100, 100, 100], [0, 20, 40], []⟩),
   ("Y", ⟨false, [100, 100, 100], [10, 30, 50], []⟩)]

/-- Store with one zero-duration event (`B`'s duration array is shorter
than its timestamp array, as happens while a promise is pending, so the
`|| 0` fallback yields duration 0) whose timestamp lies inside `A`'s
window: the half-open windows `[0, 10)` and `[5, 5)` do not overlap. -/
def storeZeroDur : Store :=
  [("A", ⟨false, [10], [0], []⟩),
   ("B", ⟨false, [], [5], []⟩)]

/-- Store with an entry but no recorded events (empty sample arrays). -/
def storeNoEvents : Store :=
  [("A", ⟨false, [], [], []⟩)]

/-- Store with ten events for the `maxIterations = 2` scenario. -/
def storeTen : Store :=
  [("F", ⟨false, List.replicate 10 1, [0, 1, 2, 3, 4, 5, 6, 7, 8, 9], []⟩)]

/-- Two separated positive-duration events, for instantiating the
no-overlap theorem. -/
def storeSep : Store :=
  [("A", ⟨false, [1], [0], []⟩),
   ("B", ⟨false, [1], [10], []⟩)]

/-- Concrete events used for the trace-reset counterexample: `B` starts
after `A`'s window has closed, so the nesting test between them fails. -/
def evtA : SeqEvent := ⟨0, "A", 5, false⟩

/-- See `evtA`. -/
def evtB : SeqEvent := ⟨10, "B", 5, false⟩

unseal Rat.add

/-- Claim C1, counterexample: the walk over `storeRet` emits a `Return`
edge from `B` to `A`, and that edge renders with the `-->` arrow, not
the claimed dashed-arrowhead notation `-->>` (the rendered diagram line
differs from the claimed shape `B-->>A: return`). -/
theorem C1_counterexample :
    (walkFrom 100 0 none (sortOrd evtLt (flattenCalls storeRet)) ⟨[], []⟩).1
      = [DiagramLine.call "A" "B" "B" false, DiagramLine.ret "B" "A"]
    ∧ renderLine (DiagramLine.ret "B" "A") = "  B-->A: return\n"
    ∧ "  B-->A: return\n" ≠ "  B-->>A: return\n" := by
  refine ⟨by decide, rfl, by decide⟩

/-- Claim C1, amended: every `Return` edge renders as
`<Psrc>--><Pdst>: return` — the dashed line `-->` without arrowhead
(the source's line 262), not `-->>`. -/
theorem C1_theorem (src tgt : String) :
    renderLine (DiagramLine.ret src tgt) = "  " ++ src ++ "-->" ++ tgt ++ ": return\n" :=
  rfl

/-- Claim C2, counterexample: for the empty sample sequence the `min`
field is `Infinity` (`Math.min()` of an empty spread), which is not the
`NaN` sentinel — so not every field resolves to `NaN`. -/
theorem C2_counterexample :
    (durationStats []).min = JsNum.posInf ∧ JsNum.posInf ≠ JsNum.nan := by
  refine ⟨rfl, by decide⟩

/-- Claim C2, amended: the summary of an empty sample sequence is a
defined (non-throwing — the model is a total function) record in which
`avg` is `NaN`, `min` is `Infinity`, `max` is `-Infinity`, and
`p0`/`p99` are `undefined`. -/
theorem C2_theorem :
    durationStats [] =
      { avg := JsNum.nan, min := JsNum.posInf, max := JsNum.negInf,
        p0 := JsNum.undef, p99 := JsNum.undef } :=
  rfl

/-- Claim C3, counterexample: on the six-event fully nested chain
`[X, Y, X, Y, X, Y]` of `storeChain6` the walk emits five `Call` edges
and no truncation note, and processes all five adjacent pairs (all six
events): the running trace only grows along the unbroken chain, so its
joined signature never matches the history of its own proper prefixes.
The character `'C'` does not occur in the output at all, so in
particular no `Circular pattern detected` note is emitted. -/
theorem C3_counterexample :
    (walkFrom 100 0 none (sortOrd evtLt (flattenCalls storeChain6)) ⟨[], []⟩)
      = ([DiagramLine.call "X" "Y" "Y" false, DiagramLine.call "Y" "X" "X" false,
          DiagramLine.call "X" "Y" "Y" false, DiagramLine.call "Y" "X" "X" false,
          DiagramLine.call "X" "Y" "Y" false], 5)
    ∧ (generateSequenceDiagram storeChain6 100).data.contains 'C' = false := by
  refine ⟨by decide, by decide⟩

/-- Claim C3, amended: reconstruction of the six-event fully nested
chain `[X, Y, X, Y, X, Y]` terminates only because the events run out:
it emits all five `Call` edges and no `Circular pattern detected`
truncation note (signature matching can only fire after a trace reset,
which an unbroken nesting chain never triggers). -/
theorem C3_theorem :
    generateSequenceDiagram storeChain6 100 =
      "```mermaid\nsequenceDiagram\n  participant X\n  participant Y\n"
        ++ "  X->>Y: Y\n  Y->>X: X\n  X->>Y: Y\n  Y->>X: X\n  X->>Y: Y\n```" := by
  rfl

/-- Claim C4, counterexample: with the one-element trace `["A"]` the
nesting test between `evtA` and `evtB` fails (`10 < 0 + 5` is false),
yet the walk step leaves the running trace as `["A"]` instead of
resetting it to empty — the reset is gated on the trace being longer
than 2. -/
theorem C4_counterexample :
    nestingTest evtA evtB = false
    ∧ nextWithin evtA (some evtB) = false
    ∧ (walkStep 0 none evtA (some evtB) ⟨[], []⟩).2.1.curSeq = ["A"]
    ∧ (["A"] : List String) ≠ [] := by
  refine ⟨by decide, by decide, by decide, by decide⟩

/-- Claim C4, amended: when no repeated signature is detected, the walk
step resets the running trace to empty exactly when the trace (after
appending the current name) is longer than 2 and the within-duration
test against the next event fails: a trace of length at most 2 is always
kept (regardless of the nesting test's outcome), and a trace longer
than 2 whose within-duration test passes is also kept. -/
theorem C4_theorem (i : Nat) (prev : Option SeqEvent) (cur : SeqEvent)
    (next : Option SeqEvent) (st : WalkState)
    (hm : st.history.contains
      (String.intercalate "-" (st.curSeq ++ [cur.functionName])) = false) :
    ((st.curSeq ++ [cur.functionName]).length ≤ 2 →
      (walkStep i prev cur next st).2.1.curSeq = st.curSeq ++ [cur.functionName])
    ∧ (2 < (st.curSeq ++ [cur.functionName]).length →
        nextWithin cur next = false →
        (walkStep i prev cur next st).2.1.curSeq = [])
    ∧ (2 < (st.curSeq ++ [cur.functionName]).length →
        nextWithin cur next = true →
        (walkStep i prev cur next st).2.1.curSeq
          = st.curSeq ++ [cur.functionName]) := by
  unfold walkStep
  refine ⟨?_, ?_, ?_⟩
  · intro hlen
    rw [if_neg (by rw [hm]; simp), if_neg (by omega)]
  · intro hlen hnw
    rw [if_neg (by rw [hm]; simp), if_pos hlen]
    simp [hnw]
  · intro hlen hnw
    rw [if_neg (by rw [hm]; simp), if_pos hlen]
    simp [hnw]

/-- Closed witness for `C4_theorem`, exercising all three branches: the
length-1 trace `["A"]` is kept despite the failed nesting test; the
length-3 trace `["P", "Q", "R"]` whose within-duration test passes
(`10 ∈ [0, 100]`) is kept; and the length-3 trace `["P", "Q", "A"]`
whose within-duration test fails (`10 ∉ [0, 5]`) is reset to empty.
Every hypothesis is discharged at the concrete inputs. -/
theorem C4_theorem_witness :
    ((WalkState.mk [] []).history.contains
        (String.intercalate "-" ([] ++ [evtA.functionName])) = false
      ∧ (walkStep 0 none evtA (some evtB) ⟨[], []⟩).2.1.curSeq
          = [] ++ [evtA.functionName])
    ∧ (nextWithin (⟨0, "R", 100, false⟩ : SeqEvent)
          (some (⟨10, "S", 5, false⟩ : SeqEvent)) = true
      ∧ (walkStep 2 none (⟨0, "R", 100, false⟩ : SeqEvent)
          (some (⟨10, "S", 5, false⟩ : SeqEvent)) ⟨[], ["P", "Q"]⟩).2.1.curSeq
            = ["P", "Q"] ++ ["R"])
    ∧ (nextWithin evtA (some evtB) = false
      ∧ (walkStep 2 none evtA (some evtB) ⟨[], ["P", "Q"]⟩).2.1.curSeq = []) :=
  ⟨⟨by decide,
      (C4_theorem 0 none evtA (some evtB) ⟨[], []⟩ (by decide)).1 (by decide)⟩,
    ⟨by decide,
      (C4_theorem 2 none (⟨0, "R", 100, false⟩ : SeqEvent)
          (some (⟨10, "S", 5, false⟩ : SeqEvent)) ⟨[], ["P", "Q"]⟩
          (by decide)).2.2 (by decide) (by decide)⟩,
    ⟨by decide,
      (C4_theorem 2 none evtA (some evtB) ⟨[], ["P", "Q"]⟩
          (by decide)).2.1 (by decide) (by decide)⟩⟩

/-- Claim C5: for every non-empty sample list the `p99` field is the
sample at index `floor(n * 0.99)` clamped to `[0, n-1]` (the computed
index is already at most `n - 1`, so the clamp is the identity and the
unclamped source access stays in bounds); for the 100 ascending samples
`1..100` it is the sample at index 99, namely 100; and for a singleton
list `p99 = p0 = min = max =` the single sample. -/
theorem C5_theorem :
    (∀ l : List ℚ, l ≠ [] →
      (durationStats l).p99 = jsIndex l (min (p99Index l.length) (l.length - 1)))
    ∧ (durationStats ascending100).p99 = JsNum.num 100
    ∧ (∀ x : ℚ, (durationStats [x]).p99 = JsNum.num x
        ∧ (durationStats [x]).p0 = JsNum.num x
        ∧ (durationStats [x]).min = JsNum.num x
        ∧ (durationStats [x]).max = JsNum.num x) := by
  refine ⟨?_, by decide, fun x => ?_⟩
  case refine_2 =>
    refine ⟨?_, rfl, rfl, rfl⟩
    show jsIndex [x] (p99Index [x].length) = JsNum.num x
    norm_num [p99Index, jsIndex]
  intro l hl
  have hn : 0 < l.length := List.length_pos.mpr hl
  have hidx : p99Index l.length ≤ l.length - 1 := by
    have hlt : (99 * l.length) / 100 < l.length := by
      rw [Nat.div_lt_iff_lt_mul (by omega)]
      omega
    unfold p99Index
    omega
  rw [Nat.min_eq_left hidx]
  rfl

/-- Closed witness for `C5_theorem`: the general p99 clause applied to
the singleton list `[5]`. -/
theorem C5_theorem_witness :
    ([(5 : ℚ)] ≠ []) ∧
      (durationStats [(5 : ℚ)]).p99
        = jsIndex [(5 : ℚ)]
            (min (p99Index [(5 : ℚ)].length) ([(5 : ℚ)].length - 1)) :=
  ⟨by decide, C5_theorem.1 [(5 : ℚ)] (by decide)⟩

/-- Claim C6, counterexample: `storeNoEvents` has an entry with no
recorded events, so its flattened event list is empty and reconstruction
short-circuits to the fixed "no data" diagram — but `getResults` maps
every store entry, so the statistics list has one (degenerate) entry and
is not empty. -/
theorem C6_counterexample :
    flattenCalls storeNoEvents = []
    ∧ generateSequenceDiagram storeNoEvents 100 = noDataDiagram
    ∧ (getResults storeNoEvents).length = 1
    ∧ (1 : Nat) ≠ 0 := by
  refine ⟨rfl, rfl, rfl, by decide⟩

/-- Claim C6, amended: a store with an empty flattened event list
reconstructs to exactly the fixed "no data" diagram (a single note line,
no participants, no edges) under any iteration cap, and the statistics
list is empty exactly for the store with no entries; both operations are
total (never throw). -/
theorem C6_theorem :
    getResults ([] : Store) = []
    ∧ (∀ (s : Store) (m : Nat), flattenCalls s = [] →
        generateSequenceDiagram s m = noDataDiagram) := by
  refine ⟨rfl, fun s m h => ?_⟩
  simp [generateSequenceDiagram, h, sortOrd]

/-- Closed witness for `C6_theorem`: the empty store has an empty
flattened event list and produces the fixed "no data" diagram. -/
theorem C6_theorem_witness :
    flattenCalls ([] : Store) = []
    ∧ generateSequenceDiagram ([] : Store) 7 = noDataDiagram :=
  ⟨rfl, C6_theorem.2 [] 7 rfl⟩

theorem insertOrd_perm (lt : α → α → Bool) (x : α) (l : List α) :
    List.Perm (insertOrd lt x l) (x :: l) := by
  induction l with
  | nil => simp [insertOrd]
  | cons y ys ih =>
    simp only [insertOrd]
    split
    · exact (ih.cons y).trans (List.Perm.swap x y ys)
    · exact List.Perm.refl _

theorem sortOrd_perm (lt : α → α → Bool) (l : List α) :
    List.Perm (sortOrd lt l) l := by
  induction l with
  | nil => simp [sortOrd]
  | cons x xs ih =>
    exact (insertOrd_perm lt x (sortOrd lt xs)).trans (ih.cons x)

/-- The pair counter of the walk is bounded by the remaining events and
the remaining iteration budget. -/
theorem walkFrom_pairs_le (m : Nat) :
    ∀ (l : List SeqEvent) (i : Nat) (prev : Option SeqEvent) (st : WalkState),
      (walkFrom m i prev l st).2 ≤ min (l.length - 1) (m - i) := by
  intro l
  induction l with
  | nil =>
    intro i prev st
    simp [walkFrom]
  | cons cur rest ih =>
    intro i prev st
    by_cases hi : i < m
    · simp only [walkFrom, if_pos hi]
      split
      · cases rest with
        | nil => simp
        | cons r rs =>
          simp only [List.isEmpty_cons, Bool.false_eq_true, if_false,
            List.length_cons]
          omega
      · cases rest with
        | nil =>
          simp [walkFrom]
        | cons r rs =>
          have h2 := ih (i + 1) (some cur)
            (walkStep i prev cur (r :: rs).head? st).2.1
          simp only [List.isEmpty_cons, Bool.false_eq_true, if_false,
            List.length_cons] at h2 ⊢
          omega
    · simp [walkFrom, hi]

/-- Claim C7: for every store and every iteration cap `m`, the walk
examines at most `min(length - 1, m)` adjacent event pairs; in
particular for the ten-event store and `maxIterations = 2` exactly two
pairs are processed. -/
theorem C7_theorem :
    (∀ (s : Store) (m : Nat),
      (walkFrom m 0 none (sortOrd evtLt (flattenCalls s)) ⟨[], []⟩).2
        ≤ min ((flattenCalls s).length - 1) m)
    ∧ (walkFrom 2 0 none (sortOrd evtLt (flattenCalls storeTen)) ⟨[], []⟩).2 = 2 := by
  refine ⟨fun s m => ?_, by decide⟩
  have h := walkFrom_pairs_le m (sortOrd evtLt (flattenCalls s)) 0 none ⟨[], []⟩
  have hlen := (sortOrd_perm evtLt (flattenCalls s)).length_eq
  rw [hlen] at h
  simpa using h

theorem windowsOverlap_symm (a b : SeqEvent)
    (h : windowsOverlap a b) : windowsOverlap b a := by
  unfold windowsOverlap at h ⊢
  rw [max_comm, min_comm]
  exact h

theorem insertOrd_pairwise_ts (x : SeqEvent) (l : List SeqEvent)
    (h : l.Pairwise (fun a b => a.timestamp ≤ b.timestamp)) :
    (insertOrd evtLt x l).Pairwise (fun a b => a.timestamp ≤ b.timestamp) := by
  induction l with
  | nil => simp [insertOrd]
  | cons y ys ih =>
    rcases List.pairwise_cons.mp h with ⟨hy, hys⟩
    simp only [insertOrd]
    split
    case isTrue hlt =>
      refine List.pairwise_cons.mpr ⟨?_, ih hys⟩
      intro b hb
      rcases List.mem_cons.mp ((insertOrd_perm evtLt x ys).mem_iff.mp hb) with
        hbx | hbys
      · rw [hbx]
        exact le_of_lt (of_decide_eq_true hlt)
      · exact hy b hbys
    case isFalse hge =>
      have hxy : x.timestamp ≤ y.timestamp := by
        have := (fun hc => hge (decide_eq_true hc) : ¬ y.timestamp < x.timestamp)
        exact le_of_not_lt this
      refine List.pairwise_cons.mpr ⟨?_, h⟩
      intro b hb
      rcases List.mem_cons.mp hb with hby | hbys
      · rw [hby]; exact hxy
      · exact hxy.trans (hy b hbys)

theorem sortOrd_pairwise_ts (l : List SeqEvent) :
    (sortOrd evtLt l).Pairwise (fun a b => a.timestamp ≤ b.timestamp) := by
  induction l with
  | nil => simp [sortOrd]
  | cons x xs ih => exact insertOrd_pairwise_ts x (sortOrd evtLt xs) ih

/-- If the next event starts no earlier than the current one, has
positive duration, and their windows do not overlap, the nesting test
fails. -/
theorem nestingTest_eq_false (cur n : SeqEvent)
    (hle : cur.timestamp ≤ n.timestamp) (hsep : ¬ windowsOverlap cur n)
    (hpos : 0 < n.duration) : nestingTest cur n = false := by
  apply decide_eq_false
  intro hlt
  apply hsep
  unfold windowsOverlap
  rw [max_eq_right hle]
  exact lt_min hlt (by linarith)

theorem stepEdge_no_call (i : Nat) (prev : Option SeqEvent) (cur n : SeqEvent)
    (hnest : nestingTest cur n = false)
    (src tgt lbl : String) (b : Bool) :
    DiagramLine.call src tgt lbl b ∉ stepEdge i prev cur (some n) := by
  simp only [stepEdge, hnest, Bool.false_eq_true, if_false]
  split
  · split
    · split <;> simp
    · simp
  · simp

theorem walkStep_fst_cases (i : Nat) (prev : Option SeqEvent) (cur : SeqEvent)
    (next : Option SeqEvent) (st : WalkState) :
    (walkStep i prev cur next st).1 = stepEdge i prev cur next
    ∨ (walkStep i prev cur next st).1
        = stepEdge i prev cur next
          ++ [DiagramLine.note (getParticipantName cur.functionName)] := by
  simp only [walkStep]
  split
  · right; rfl
  · split
    · left; rfl
    · left; rfl

/-- Walking a timestamp-sorted list of positive-duration events whose
windows are pairwise disjoint emits no `Call` edge. -/
theorem walkFrom_no_call (m : Nat) :
    ∀ (l : List SeqEvent) (i : Nat) (prev : Option SeqEvent) (st : WalkState),
      (∀ e ∈ l, 0 < e.duration) →
      l.Pairwise (fun a b => a.timestamp ≤ b.timestamp) →
      l.Pairwise (fun a b => ¬ windowsOverlap a b) →
      ∀ src tgt lbl b,
        DiagramLine.call src tgt lbl b ∉ (walkFrom m i prev l st).1 := by
  intro l
  induction l with
  | nil =>
    intro i prev st _ _ _ src tgt lbl b
    simp [walkFrom]
  | cons cur rest ih =>
    intro i prev st hpos hsort hsep src tgt lbl b
    by_cases hi : i < m
    · have hedge : DiagramLine.call src tgt lbl b
          ∉ stepEdge i prev cur rest.head? := by
        cases rest with
        | nil => simp [stepEdge]
        | cons n ns =>
          have hle : cur.timestamp ≤ n.timestamp :=
            (List.pairwise_cons.mp hsort).1 n (List.mem_cons_self n ns)
          have hno : ¬ windowsOverlap cur n :=
            (List.pairwise_cons.mp hsep).1 n (List.mem_cons_self n ns)
          have hp : 0 < n.duration :=
            hpos n (List.mem_cons_of_mem cur (List.mem_cons_self n ns))
          exact stepEdge_no_call i prev cur n
            (nestingTest_eq_false cur n hle hno hp) src tgt lbl b
      have hstep : DiagramLine.call src tgt lbl b
          ∉ (walkStep i prev cur rest.head? st).1 := by
        rcases walkStep_fst_cases i prev cur rest.head? st with hc | hc
        · rw [hc]; exact hedge
        · rw [hc]
          intro hmem
          rcases List.mem_append.mp hmem with hmem | hmem
          · exact hedge hmem
          · simp at hmem
      simp only [walkFrom, if_pos hi]
      split
      · exact hstep
      · intro hmem
        rcases List.mem_append.mp hmem with hmem | hmem
        · exact hstep hmem
        · exact ih (i + 1) (some cur) (walkStep i prev cur rest.head? st).2.1
            (fun e he => hpos e (List.mem_cons_of_mem cur he))
            (List.pairwise_cons.mp hsort).2 (List.pairwise_cons.mp hsep).2
            src tgt lbl b hmem
    · simp [walkFrom, hi]

/-- Claim C8, counterexample: in `storeZeroDur` the event `B@5` has
duration 0 (its duration array is shorter than its timestamp array), so
the half-open windows `[0, 10)` and `[5, 5)` of the two events are
pairwise non-overlapping — yet the walk emits the `Call` edge
`A->>B`, because the nesting test compares timestamps, not windows. -/
theorem C8_counterexample :
    (flattenCalls storeZeroDur).Pairwise (fun a b => ¬ windowsOverlap a b)
    ∧ (walkFrom 100 0 none (sortOrd evtLt (flattenCalls storeZeroDur)) ⟨[], []⟩).1
        = [DiagramLine.call "A" "B" "B" false]
    ∧ DiagramLine.call "A" "B" "B" false
        ∈ (walkFrom 100 0 none (sortOrd evtLt (flattenCalls storeZeroDur)) ⟨[], []⟩).1 := by
  refine ⟨by decide, by decide, by decide⟩

/-- Claim C8, amended: if every flattened event has positive duration
and no two events' half-open windows `[timestamp, timestamp + duration)`
overlap, the walk emits no `Call` edge (the zero-duration degenerate
case excluded by the added positivity hypothesis is the only way the
claim fails). -/
theorem C8_theorem (s : Store) (m : Nat)
    (hpos : ∀ e ∈ flattenCalls s, 0 < e.duration)
    (hsep : (flattenCalls s).Pairwise (fun a b => ¬ windowsOverlap a b)) :
    ∀ src tgt lbl b,
      DiagramLine.call src tgt lbl b
        ∉ (walkFrom m 0 none (sortOrd evtLt (flattenCalls s)) ⟨[], []⟩).1 := by
  have hperm := sortOrd_perm evtLt (flattenCalls s)
  apply walkFrom_no_call
  · intro e he
    exact hpos e (hperm.mem_iff.mp he)
  · exact sortOrd_pairwise_ts (flattenCalls s)
  · refine (hperm.pairwise_iff ?_).mpr hsep
    intro a b hab hba
    exact hab (windowsOverlap_symm b a hba)

/-- Closed witness for `C8_theorem`: two separated positive-duration
events produce no `Call` edge. -/
theorem C8_theorem_witness :
    (∀ e ∈ flattenCalls storeSep, 0 < e.duration)
    ∧ (flattenCalls storeSep).Pairwise (fun a b => ¬ windowsOverlap a b)
    ∧ DiagramLine.call "A" "B" "B" false
        ∉ (walkFrom 100 0 none (sortOrd evtLt (flattenCalls storeSep)) ⟨[], []⟩).1 :=
  ⟨by decide, by decide,
    C8_theorem storeSep 100 (by decide) (by decide) "A" "B" "B" false⟩

/-- Claim C9: diagram generation is a pure function of the store
snapshot and the iteration cap (the source reads only
`profiler.functionData` and its arguments; without file export no
clock or I/O is consulted), so two runs on the same snapshot with the
same cap are byte-identical. -/
theorem C9_theorem (s : Store) (m : Nat) :
    generateSequenceDiagram s m = generateSequenceDiagram s m :=
  rfl

theorem evFlag_functionName (fl : String → Bool) (e : SeqEvent) :
    (evFlag fl e).functionName = e.functionName :=
  rfl

theorem evtLt_evFlag (fl : String → Bool) (a b : SeqEvent) :
    evtLt (evFlag fl a) (evFlag fl b) = evtLt a b :=
  rfl

theorem nestingTest_evFlag (fl : String → Bool) (a b : SeqEvent) :
    nestingTest (evFlag fl a) (evFlag fl b) = nestingTest a b :=
  rfl

theorem isWithinDuration_evFlag (fl : String → Bool) (a b : SeqEvent) :
    isWithinDuration (evFlag fl a) (evFlag fl b) = isWithinDuration a b :=
  rfl

/-- A `Call` edge renders the same text whatever the promise flag: both
branches of the source's `arrowType` ternary are `"->>"`. -/
theorem renderLine_call (source target label : String) (b : Bool) :
    renderLine (DiagramLine.call source target label b)
      = "  " ++ source ++ "->>" ++ target ++ ": " ++ label ++ "\n" := by
  cases b <;> rfl

theorem setFlags_cons (fl : String → Bool) (nd : String × FunctionData)
    (s : Store) :
    setFlags fl (nd :: s)
      = (nd.1, { nd.2 with isPromise := fl nd.1 }) :: setFlags fl s :=
  rfl

theorem flattenCalls_cons (nd : String × FunctionData) (s : Store) :
    flattenCalls (nd :: s) = entryEvents nd.1 nd.2 ++ flattenCalls s := by
  simp [flattenCalls]

theorem entryEvents_setFlag (fl : String → Bool) (name : String)
    (d : FunctionData) :
    entryEvents name { d with isPromise := fl name }
      = (entryEvents name d).map (evFlag fl) := by
  unfold entryEvents
  rw [List.map_filterMap]
  have h : (fun (i : Nat) =>
      match ({ d with isPromise := fl name } : FunctionData).invocationTimestamps[i]? with
      | none => none
      | some ts =>
          some { timestamp := ts
                 functionName := name
                 duration := jsOr0 (({ d with isPromise := fl name } : FunctionData).executionDuration[i]?)
                 isPromise := ({ d with isPromise := fl name } : FunctionData).isPromise })
    = (fun (i : Nat) => Option.map (evFlag fl)
        (match d.invocationTimestamps[i]? with
         | none => none
         | some ts =>
             some { timestamp := ts
                    functionName := name
                    duration := jsOr0 (d.executionDuration[i]?)
                    isPromise := d.isPromise })) := by
    funext i
    show (match d.invocationTimestamps[i]? with
      | none => none
      | some ts =>
          some ({ timestamp := ts, functionName := name,
                  duration := jsOr0 (d.executionDuration[i]?),
                  isPromise := fl name } : SeqEvent)) = _
    cases d.invocationTimestamps[i]? <;> rfl
  rw [h]

theorem flatten_setFlags (fl : String → Bool) (s : Store) :
    flattenCalls (setFlags fl s) = (flattenCalls s).map (evFlag fl) := by
  induction s with
  | nil => rfl
  | cons nd rest ih =>
    rw [setFlags_cons, flattenCalls_cons, flattenCalls_cons, List.map_append,
      entryEvents_setFlag, ih]

theorem insertOrd_map_evFlag (fl : String → Bool) (x : SeqEvent)
    (l : List SeqEvent) :
    insertOrd evtLt (evFlag fl x) (l.map (evFlag fl))
      = (insertOrd evtLt x l).map (evFlag fl) := by
  induction l with
  | nil => rfl
  | cons y ys ih =>
    simp only [List.map_cons, insertOrd, evtLt_evFlag]
    rcases Bool.eq_false_or_eq_true (evtLt y x) with hc | hc <;> simp [hc, ih]

theorem sortOrd_map_evFlag (fl : String → Bool) (l : List SeqEvent) :
    sortOrd evtLt (l.map (evFlag fl)) = (sortOrd evtLt l).map (evFlag fl) := by
  induction l with
  | nil => rfl
  | cons x xs ih =>
    simp only [List.map_cons, sortOrd]
    rw [ih, insertOrd_map_evFlag]

theorem stepEdge_evFlag (fl : String → Bool) (i : Nat)
    (prev : Option SeqEvent) (cur : SeqEvent) (next : Option SeqEvent) :
    (stepEdge i (prev.map (evFlag fl)) (evFlag fl cur)
        (next.map (evFlag fl))).map renderLine
      = (stepEdge i prev cur next).map renderLine := by
  cases next with
  | none => rfl
  | some n =>
    cases prev with
    | none =>
      simp only [Option.map_none', Option.map_some', stepEdge,
        nestingTest_evFlag, evFlag_functionName, isWithinDuration_evFlag]
      split
      · simp [renderLine_call]
      · rfl
    | some p =>
      simp only [Option.map_none', Option.map_some', stepEdge,
        nestingTest_evFlag, evFlag_functionName, isWithinDuration_evFlag]
      split
      · simp [renderLine_call]
      · rfl

theorem nextWithin_evFlag (fl : String → Bool) (cur : SeqEvent)
    (next : Option SeqEvent) :
    nextWithin (evFlag fl cur) (next.map (evFlag fl)) = nextWithin cur next := by
  cases next <;> rfl

theorem walkStep_evFlag (fl : String → Bool) (i : Nat)
    (prev : Option SeqEvent) (cur : SeqEvent) (next : Option SeqEvent)
    (st : WalkState) :
    ((walkStep i (prev.map (evFlag fl)) (evFlag fl cur)
        (next.map (evFlag fl)) st).1.map renderLine
      = (walkStep i prev cur next st).1.map renderLine)
    ∧ (walkStep i (prev.map (evFlag fl)) (evFlag fl cur)
        (next.map (evFlag fl)) st).2
      = (walkStep i prev cur next st).2 := by
  have hedge := stepEdge_evFlag fl i prev cur next
  simp only [walkStep, evFlag_functionName, nextWithin_evFlag]
  cases hc : st.history.contains
      (String.intercalate "-" (st.curSeq ++ [cur.functionName])) <;>
    simp only [hc, Bool.false_eq_true, if_true, if_false]
  · by_cases hl : 2 < (st.curSeq ++ [cur.functionName]).length
    · rw [if_pos hl, if_pos hl]
      exact ⟨hedge, rfl⟩
    · rw [if_neg hl, if_neg hl]
      exact ⟨hedge, rfl⟩
  · constructor
    · simp only [List.map_append, hedge]
    · trivial

theorem walkFrom_evFlag (fl : String → Bool) (m : Nat) :
    ∀ (l : List SeqEvent) (i : Nat) (prev : Option SeqEvent) (st : WalkState),
      (walkFrom m i (prev.map (evFlag fl)) (l.map (evFlag fl)) st).1.map renderLine
        = (walkFrom m i prev l st).1.map renderLine := by
  intro l
  induction l with
  | nil =>
    intro i prev st
    simp [walkFrom]
  | cons cur rest ih =>
    intro i prev st
    by_cases hi : i < m
    · have hstep := walkStep_evFlag fl i prev cur rest.head? st
      have hhead : (rest.map (evFlag fl)).head? = rest.head?.map (evFlag fl) := by
        cases rest <;> rfl
      simp only [List.map_cons, walkFrom, if_pos hi, hhead]
      rw [hstep.2]
      split
      · exact hstep.1
      · have hrec := ih (i + 1) (some cur) (walkStep i prev cur rest.head? st).2.1
        simp only [Option.map_some'] at hrec
        simp only [List.map_append, hstep.1, hrec]
    · simp [walkFrom, hi]

theorem isEmpty_map (f : α → β) (l : List α) :
    (l.map f).isEmpty = l.isEmpty := by
  cases l <;> rfl

theorem firstSeen_evFlag (fl : String → Bool) (l : List SeqEvent) :
    firstSeenParticipants (l.map (evFlag fl)) = firstSeenParticipants l := by
  unfold firstSeenParticipants
  have h : ∀ (l' : List SeqEvent) (acc : List String),
      (l'.map (evFlag fl)).foldl (fun acc e =>
        let p := getParticipantName e.functionName
        if acc.contains p then acc else acc ++ [p]) acc
        = l'.foldl (fun acc e =>
            let p := getParticipantName e.functionName
            if acc.contains p then acc else acc ++ [p]) acc := by
    intro l'
    induction l' with
    | nil => intro acc; rfl
    | cons e es ihh =>
      intro acc
      simp only [List.map_cons, List.foldl_cons, evFlag_functionName]
      exact ihh _
  exact h l []

/-- Claim C10: the generated diagram text does not depend on the
per-function promise flags — replacing every store entry's `isPromise`
by an arbitrary flag assignment leaves the output string unchanged
(the source's `arrowType` ternary produces `"->>"` in both branches, and
no other part of the generation reads the flag). -/
theorem C10_theorem (s : Store) (m : Nat) (fl : String → Bool) :
    generateSequenceDiagram (setFlags fl s) m = generateSequenceDiagram s m := by
  simp only [generateSequenceDiagram, flatten_setFlags, sortOrd_map_evFlag,
    isEmpty_map]
  by_cases h : (sortOrd evtLt (flattenCalls s)).isEmpty = true
  · rw [if_pos h, if_pos h]
  · rw [if_neg h, if_neg h, firstSeen_evFlag]
    have hw := walkFrom_evFlag fl m (sortOrd evtLt (flattenCalls s)) 0 none ⟨[], []⟩
    simp only [Option.map_none'] at hw
    rw [hw]

end ProfilerJs
